import Mathlib

/-!
Shallow embedding of `NoStalk/serviceUtilities` (`src/util.go`).

The source file contains two near-identical revisions of the library,
concatenated.  The current revision (the second one, `util.go:286-638`)
is embedded at top level; the older revision (`util.go:1-285`), whose
`GetLastContest`/`GetLastSubmission` hardcode the Leetcode field, is
embedded under the `OldRev` namespace.

Modelling decisions:
* Go `string` is `String`; `int32`/`int64` are `Int`; `float64` values are
  only stored and compared, never computed with, so they are modelled as
  `Rat`.
* The MongoDB `users` collection is a list of `UserSchema` documents; the
  driver primitives used by the code (`FindOne` with a field projection,
  `UpdateOne` with `$push`/`$each`) are modelled on that list.  Persisted
  field keys for the platform sub-documents are the lower-case platform
  names (the spec's persistence model, matched by the code's
  `strings.ToLower` path construction); a MongoDB field path selects a
  platform only when it equals that persisted key exactly (MongoDB paths
  are case sensitive).  `UpdateOne` reports no error when its filter
  matches no document.
* `log.Fatalf` terminates the hosting process; it is modelled as the
  `GoError.goFatal` outcome (nothing is returned to the caller).  A Go
  runtime panic (reflection on a missing field, index out of range) is
  modelled as `GoError.goPanic`.
-/

/-- Failure outcomes.  `goFatal` models `log.Fatalf` (the process is
terminated), `goPanic` models a Go runtime panic.  The remaining
constructors are the spec's error taxonomy (spec section 7: `UserNotFound`,
`InvalidPlatform`, `StoreUnavailable`, `MalformedRecord`); they are included
so that spec-level claims are statable, and no code path of this repository
ever produces them. -/
inductive GoError where
  | goFatal (msg : String)
  | goPanic (msg : String)
  | userNotFound
  | invalidPlatform
  | storeUnavailable
  | malformedRecord
  deriving DecidableEq

/-- Go `context.Context` values as used by this file: `context.Background()`,
`context.TODO()`, and `context.WithTimeout(parent, d)` (`d` in seconds). -/
inductive GoContext where
  | background
  | todo
  | withTimeout (parent : GoContext) (seconds : Nat)
  deriving DecidableEq

/-- A context bounds the wait on the persistence layer iff it carries a
timeout. -/
def GoContext.isBounded : GoContext → Bool
  | .withTimeout _ _ => true
  | _ => false

/-- `ContestData` of the current revision (util.go:334-341). -/
structure ContestData where
  ContestName : String
  ContestDate : String
  Rank : Rat
  Rating : Rat
  Solved : Int
  ContestID : String
  deriving DecidableEq

/-- `SubmissionData` (util.go:342-349; identical in both revisions). -/
structure SubmissionData where
  ProblemUrl : String
  ProblemName : String
  SubmissionDate : String
  SubmissionLanguage : String
  SubmissionStatus : String
  CodeUrl : String
  deriving DecidableEq

/-- `PlatformDataModel` of the current revision (util.go:326-332). -/
structure PlatformDataModel where
  Handle : String
  TotalSolved : Int
  Ranking : Rat
  Contests : List ContestData
  Submissions : List SubmissionData
  deriving DecidableEq

/-- `Platforms` (util.go:317-324): one sub-record per known platform. -/
structure Platforms where
  Leetcode : PlatformDataModel
  Codeforces : PlatformDataModel
  Codechef : PlatformDataModel
  Cpoj : PlatformDataModel
  Hackerearth : PlatformDataModel
  Atcoder : PlatformDataModel
  deriving DecidableEq

/-- `UserSchema` (util.go:308-315). -/
structure UserSchema where
  Email : String
  FirstName : String
  LastName : String
  Password : String
  PlatformData : Platforms
  RefreshToken : String
  deriving DecidableEq

/-- Go zero value of `ContestData`. -/
def ContestData.zero : ContestData :=
  { ContestName := "", ContestDate := "", Rank := 0, Rating := 0, Solved := 0, ContestID := "" }

/-- Go zero value of `SubmissionData`. -/
def SubmissionData.zero : SubmissionData :=
  { ProblemUrl := "", ProblemName := "", SubmissionDate := "", SubmissionLanguage := "",
    SubmissionStatus := "", CodeUrl := "" }

/-- Go zero value of `PlatformDataModel`. -/
def PlatformDataModel.zero : PlatformDataModel :=
  { Handle := "", TotalSolved := 0, Ranking := 0, Contests := [], Submissions := [] }

/-- Go zero value of `Platforms`. -/
def Platforms.zero : Platforms :=
  { Leetcode := .zero, Codeforces := .zero, Codechef := .zero, Cpoj := .zero,
    Hackerearth := .zero, Atcoder := .zero }

/-- Names of the six platform fields of `Platforms`. -/
inductive PlatformField where
  | leetcode
  | codeforces
  | codechef
  | cpoj
  | hackerearth
  | atcoder
  deriving DecidableEq

/-- Exported Go field name of a platform field (what `reflect.FieldByName`
matches, case sensitively). -/
def goFieldName : PlatformField → String
  | .leetcode => "Leetcode"
  | .codeforces => "Codeforces"
  | .codechef => "Codechef"
  | .cpoj => "Cpoj"
  | .hackerearth => "Hackerearth"
  | .atcoder => "Atcoder"

/-- Persisted (lower-case) document key of a platform field. -/
def persistedKey : PlatformField → String
  | .leetcode => "leetcode"
  | .codeforces => "codeforces"
  | .codechef => "codechef"
  | .cpoj => "cpoj"
  | .hackerearth => "hackerearth"
  | .atcoder => "atcoder"

/-- Read the platform field `f` of a `Platforms` value. -/
def Platforms.get (p : Platforms) : PlatformField → PlatformDataModel
  | .leetcode => p.Leetcode
  | .codeforces => p.Codeforces
  | .codechef => p.Codechef
  | .cpoj => p.Cpoj
  | .hackerearth => p.Hackerearth
  | .atcoder => p.Atcoder

/-- Replace the platform field `f` of a `Platforms` value. -/
def Platforms.set (p : Platforms) : PlatformField → PlatformDataModel → Platforms
  | .leetcode, v => { p with Leetcode := v }
  | .codeforces, v => { p with Codeforces := v }
  | .codechef, v => { p with Codechef := v }
  | .cpoj, v => { p with Cpoj := v }
  | .hackerearth, v => { p with Hackerearth := v }
  | .atcoder, v => { p with Atcoder := v }

/-- `reflect.ValueOf(platformData).Elem().FieldByName(platform)`: succeeds
only on the exact exported Go field name. -/
def fieldByName (platform : String) : Option PlatformField :=
  if platform = "Leetcode" then some .leetcode
  else if platform = "Codeforces" then some .codeforces
  else if platform = "Codechef" then some .codechef
  else if platform = "Cpoj" then some .cpoj
  else if platform = "Hackerearth" then some .hackerearth
  else if platform = "Atcoder" then some .atcoder
  else none

/-- Resolve a MongoDB field-path component against the persisted
(lower-case) platform keys; MongoDB paths are case sensitive. -/
def keyToField (key : String) : Option PlatformField :=
  if key = "leetcode" then some .leetcode
  else if key = "codeforces" then some .codeforces
  else if key = "codechef" then some .codechef
  else if key = "cpoj" then some .cpoj
  else if key = "hackerearth" then some .hackerearth
  else if key = "atcoder" then some .atcoder
  else none

/-- Go `strings.ToLower`: lower-case every character.  (Defined directly on
the character list so that concrete instances reduce in the kernel.) -/
def stringsToLower (s : String) : String :=
  ⟨s.data.map Char.toLower⟩

/-- `getPlatformDataDynamically` (util.go:634-638).  On a name that is not
an exported field of `Platforms`, `FieldByName` yields the zero
`reflect.Value` and `.Interface()` panics. -/
def getPlatformDataDynamically (platformData : Platforms) (platform : String) :
    Except GoError PlatformDataModel :=
  match fieldByName platform with
  | some f => .ok (platformData.get f)
  | none => .error (.goPanic "reflect: call of reflect.Value.Interface on zero Value")

/-- The `users` collection: a list of user documents. -/
abbrev Store := List UserSchema

/-- `FindOne` with the filter `{email: email}`: the first document whose
email matches, if any. -/
def findOne : Store → String → Option UserSchema
  | [], _ => none
  | u :: rest, email => if u.Email = email then some u else findOne rest email

/-- `UpdateOne` applies the update to the first document matching the
filter; when nothing matches it reports success without modifying
anything. -/
def updateFirst : Store → String → (UserSchema → UserSchema) → Store
  | [], _, _ => []
  | u :: rest, email, g =>
      if u.Email = email then g u :: rest else u :: updateFirst rest email g

/-- Result of `FindOne` under the projection
`{"platformData." ++ key ++ ".contests": 1}`: only the projected path is
retained, everything else decodes to its zero value.  A path whose platform
component matches no persisted key retains nothing. -/
def projectContests (u : UserSchema) (key : String) : UserSchema :=
  { Email := "", FirstName := "", LastName := "", Password := "", RefreshToken := "",
    PlatformData :=
      match keyToField key with
      | some f =>
          Platforms.zero.set f
            { PlatformDataModel.zero with Contests := (u.PlatformData.get f).Contests }
      | none => Platforms.zero }

/-- Result of `FindOne` under the projection
`{"platformData." ++ key ++ ".submissions": 1}`. -/
def projectSubmissions (u : UserSchema) (key : String) : UserSchema :=
  { Email := "", FirstName := "", LastName := "", Password := "", RefreshToken := "",
    PlatformData :=
      match keyToField key with
      | some f =>
          Platforms.zero.set f
            { PlatformDataModel.zero with Submissions := (u.PlatformData.get f).Submissions }
      | none => Platforms.zero }

/-- `GetLastContest` (util.go:397-425).  The projection path lower-cases
the platform name (util.go:402); the resolver receives the raw name
(util.go:418).  A missing user aborts the process (util.go:406). -/
def GetLastContest (store : Store) (email platform : String) : Except GoError ContestData :=
  match findOne store email with
  | none => .error (.goFatal "Couldnt find user")
  | some documentResult =>
    let userObject := projectContests documentResult (stringsToLower platform)
    match getPlatformDataDynamically userObject.PlatformData platform with
    | .error e => .error e
    | .ok platformData =>
        if platformData.Contests.length = 0 then
          .ok ContestData.zero
        else
          .ok (platformData.Contests.getLastD ContestData.zero)

/-- `GetLastSubmission` (util.go:433-462), symmetric to `GetLastContest`
over the submissions log. -/
def GetLastSubmission (store : Store) (email platform : String) : Except GoError SubmissionData :=
  match findOne store email with
  | none => .error (.goFatal "Couldnt find user")
  | some documentResult =>
    let userObject := projectSubmissions documentResult (stringsToLower platform)
    match getPlatformDataDynamically userObject.PlatformData platform with
    | .error e => .error e
    | .ok platformData =>
        if platformData.Submissions.length = 0 then
          .ok SubmissionData.zero
        else
          .ok (platformData.Submissions.getLastD SubmissionData.zero)

/-- `FindContestsandSubmissionsFromDB` (util.go:472-498): a full-document
find (no projection), then the dynamic resolver on the raw platform
name. -/
def FindContestsandSubmissionsFromDB (store : Store) (email platform : String) :
    Except GoError (List ContestData × List SubmissionData) :=
  match findOne store email with
  | none => .error (.goFatal "Couldnt find user")
  | some userObject =>
    match getPlatformDataDynamically userObject.PlatformData platform with
    | .error e => .error e
    | .ok platformData => .ok (platformData.Contests, platformData.Submissions)

/-- Effect of the update document
`{"$push": {"platformData." ++ key ++ ".contests": {"$each": l}}}` on one
user document.  (On a path matching no persisted platform key, MongoDB
would create a fresh field outside the typed schema; such documents are
outside this model and the typed document is unchanged.) -/
def pushContests (u : UserSchema) (key : String) (newContestData : List ContestData) :
    UserSchema :=
  match keyToField key with
  | some f =>
      let pd := u.PlatformData.get f
      { u with PlatformData :=
          u.PlatformData.set f { pd with Contests := pd.Contests ++ newContestData } }
  | none => u

/-- Effect of the `$push`/`$each` update on the submissions log. -/
def pushSubmissions (u : UserSchema) (key : String) (newSubmissionData : List SubmissionData) :
    UserSchema :=
  match keyToField key with
  | some f =>
      let pd := u.PlatformData.get f
      { u with PlatformData :=
          u.PlatformData.set f { pd with Submissions := pd.Submissions ++ newSubmissionData } }
  | none => u

/-- `AppendContestData` (util.go:506-520): `UpdateOne` with a `$push`
`$each` update on the lower-cased platform path.  `UpdateOne` reports no
error when the filter matches nothing, so the function returns `nil`
(success) in every modelled run; the `log.Fatalf` branch (util.go:515) is
reachable only on driver/transport failures, which are outside the
model. -/
def AppendContestData (store : Store) (email platform : String)
    (newContestData : List ContestData) : Store × Except GoError Unit :=
  (updateFirst store email (fun u => pushContests u (stringsToLower platform) newContestData), .ok ())

/-- `AppendSubmissionData` (util.go:528-542), symmetric over the
submissions log. -/
def AppendSubmissionData (store : Store) (email platform : String)
    (newSubmissionData : List SubmissionData) : Store × Except GoError Unit :=
  (updateFirst store email (fun u => pushSubmissions u (stringsToLower platform) newSubmissionData),
   .ok ())

/-- `platformDatapb.Submission` (the gRPC response record). -/
structure Submission where
  Date : String
  Language : String
  ProblemStatus : String
  ProblemTitle : String
  ProblemLink : String
  CodeLink : String
  deriving DecidableEq

/-- `platformDatapb.Contest` (the gRPC response record). -/
structure Contest where
  ContestName : String
  Rank : Rat
  Rating : Rat
  ContestId : Rat
  ContestDate : String
  deriving DecidableEq

/-- Longest prefix of decimal digits of a character list, and the rest. -/
def spanDigits : List Char → List Char × List Char
  | [] => ([], [])
  | c :: cs =>
      if c.isDigit then
        let r := spanDigits cs
        (c :: r.1, r.2)
      else ([], c :: cs)

/-- Numeric value of a list of decimal digits. -/
def digitsVal (ds : List Char) : Nat :=
  ds.foldl (fun a c => 10 * a + (c.toNat - 48)) 0

/-- Scale a mantissa by a decimal exponent (`esign = true` for a
non-negative exponent). -/
def applyExp (m : Rat) (esign : Bool) (e : Nat) : Rat :=
  if esign then m * ((10 ^ e : Nat) : Rat) else m / ((10 ^ e : Nat) : Rat)

/-- Exponent part of a decimal literal: optional sign, then digits and
nothing else. -/
def parseExpPart (mant : Rat) (r : List Char) : Option Rat :=
  let signAndRest : Bool × List Char :=
    match r with
    | '+' :: r2 => (true, r2)
    | '-' :: r2 => (false, r2)
    | r2 => (true, r2)
  let (ed, rest) := spanDigits signAndRest.2
  if ed.isEmpty || !rest.isEmpty then none
  else some (applyExp mant signAndRest.1 (digitsVal ed))

/-- `strconv.ParseFloat(s, 64)` restricted to finite decimal literals:
optional sign, digits with an optional fractional part (at least one digit
overall), and an optional decimal exponent.  (Go additionally accepts
infinities, NaN and hexadecimal floats; none are exercised here.)  The
result is exact, as a rational. -/
def parseFloat? (s : String) : Option Rat :=
  let signAndRest : Rat × List Char :=
    match s.toList with
    | '+' :: r => (1, r)
    | '-' :: r => (-1, r)
    | r => (1, r)
  let (ip, rest1) := spanDigits signAndRest.2
  let fracAndRest : List Char × List Char :=
    match rest1 with
    | '.' :: r => spanDigits r
    | _ => ([], rest1)
  let fp := fracAndRest.1
  if ip.isEmpty && fp.isEmpty then none
  else
    let mant : Rat :=
      signAndRest.1 * ((digitsVal ip : Rat) + (digitsVal fp : Rat) / ((10 ^ fp.length : Nat) : Rat))
    match fracAndRest.2 with
    | [] => some mant
    | 'e' :: r => parseExpPart mant r
    | 'E' :: r => parseExpPart mant r
    | _ => none

/-- `formatSubmissionSchemaToGRPCSubmission` (util.go:550-566): a total
per-record field mapping. -/
def formatSubmissionSchemaToGRPCSubmission (submissionDataforDB : List SubmissionData) :
    List Submission :=
  submissionDataforDB.map fun submission =>
    { Date := submission.SubmissionDate,
      Language := submission.SubmissionLanguage,
      ProblemStatus := submission.SubmissionStatus,
      ProblemTitle := submission.ProblemName,
      ProblemLink := submission.ProblemUrl,
      CodeLink := submission.CodeUrl }

/-- `formatContestSchemaToGRPCContest` (util.go:574-592): parses each
`ContestID` with `strconv.ParseFloat`; the first parse failure aborts the
process (`log.Fatalf`, util.go:580). -/
def formatContestSchemaToGRPCContest : List ContestData → Except GoError (List Contest)
  | [] => .ok []
  | contest :: rest =>
    match parseFloat? contest.ContestID with
    | none => .error (.goFatal "Couldnt parse contestID to float")
    | some contestIDParsedToFloat =>
      match formatContestSchemaToGRPCContest rest with
      | .error e => .error e
      | .ok tail =>
          .ok ({ ContestName := contest.ContestName,
                 Rank := contest.Rank,
                 Rating := contest.Rating,
                 ContestId := contestIDParsedToFloat,
                 ContestDate := contest.ContestDate } :: tail)

/-- `DBResources` restricted to what the claims observe: the context
created at connection time (the client, cancel function and collection
handles carry no modelled state). -/
structure DBResources where
  ctx : GoContext

/-- `OpenDatabaseConnection` (util.go:364-389), success path: connects with
`context.WithTimeout(context.Background(), 10*time.Second)` (util.go:372)
and stores that context in the returned resources.  URI-parse and connect
failures return early and are outside the model. -/
def OpenDatabaseConnection (_mongoURI : String) : DBResources :=
  { ctx := GoContext.withTimeout .background 10 }

/-- Context passed by `GetLastContest` to the driver (util.go:403):
`dbResources.ctx`. -/
def GetLastContestCtx (dbResources : DBResources) : GoContext :=
  dbResources.ctx

/-- Context passed by `GetLastSubmission` to the driver (util.go:439):
`dbResources.ctx`. -/
def GetLastSubmissionCtx (dbResources : DBResources) : GoContext :=
  dbResources.ctx

/-- Context passed by `FindContestsandSubmissionsFromDB` to the driver
(util.go:477): `context.TODO()`. -/
def FindContestsandSubmissionsFromDBCtx (_dbResources : DBResources) : GoContext :=
  .todo

/-- Context passed by `AppendContestData` to the driver (util.go:513):
`context.TODO()`. -/
def AppendContestDataCtx (_dbResources : DBResources) : GoContext :=
  .todo

/-- Context passed by `AppendSubmissionData` to the driver (util.go:535):
`context.TODO()`. -/
def AppendSubmissionDataCtx (_dbResources : DBResources) : GoContext :=
  .todo

/-- `ContestData` of the older revision (util.go:47-53): integer rank and
ratings, integer contest id. -/
structure OldRev.ContestData where
  ContestName : String
  Rank : Int
  OldRating : Int
  NewRating : Int
  ContestID : Int
  deriving DecidableEq

/-- `PlatformDataModel` of the older revision (util.go:39-45); the
submissions record is field-for-field the same as the current one and is
shared. -/
structure OldRev.PlatformDataModel where
  Handle : String
  TotalSolved : Int
  Ranking : Int
  Contests : List OldRev.ContestData
  Submissions : List SubmissionData
  deriving DecidableEq

/-- `Platforms` of the older revision (util.go:30-37). -/
structure OldRev.Platforms where
  Leetcode : OldRev.PlatformDataModel
  Codeforces : OldRev.PlatformDataModel
  Codechef : OldRev.PlatformDataModel
  Cpoj : OldRev.PlatformDataModel
  Hackerearth : OldRev.PlatformDataModel
  Atcoder : OldRev.PlatformDataModel
  deriving DecidableEq

/-- `UserSchema` of the older revision (util.go:21-28). -/
structure OldRev.UserSchema where
  Email : String
  FirstName : String
  LastName : String
  Password : String
  PlatformData : OldRev.Platforms
  RefreshToken : String
  deriving DecidableEq

/-- Go zero value of the older `PlatformDataModel`. -/
def OldRev.PlatformDataModel.zero : OldRev.PlatformDataModel :=
  { Handle := "", TotalSolved := 0, Ranking := 0, Contests := [], Submissions := [] }

/-- Go zero value of the older `Platforms`. -/
def OldRev.Platforms.zero : OldRev.Platforms :=
  { Leetcode := .zero, Codeforces := .zero, Codechef := .zero, Cpoj := .zero,
    Hackerearth := .zero, Atcoder := .zero }

/-- Read a platform field of the older `Platforms`. -/
def OldRev.Platforms.get (p : OldRev.Platforms) : PlatformField → OldRev.PlatformDataModel
  | .leetcode => p.Leetcode
  | .codeforces => p.Codeforces
  | .codechef => p.Codechef
  | .cpoj => p.Cpoj
  | .hackerearth => p.Hackerearth
  | .atcoder => p.Atcoder

/-- Replace a platform field of the older `Platforms`. -/
def OldRev.Platforms.set (p : OldRev.Platforms) :
    PlatformField → OldRev.PlatformDataModel → OldRev.Platforms
  | .leetcode, v => { p with Leetcode := v }
  | .codeforces, v => { p with Codeforces := v }
  | .codechef, v => { p with Codechef := v }
  | .cpoj, v => { p with Cpoj := v }
  | .hackerearth, v => { p with Hackerearth := v }
  | .atcoder, v => { p with Atcoder := v }

/-- The `users` collection of the older revision. -/
abbrev OldRev.Store := List OldRev.UserSchema

/-- `FindOne` with the filter `{email: email}` over the older schema. -/
def OldRev.findOne : OldRev.Store → String → Option OldRev.UserSchema
  | [], _ => none
  | u :: rest, email => if u.Email = email then some u else OldRev.findOne rest email

/-- Projection `{"platformData." ++ key ++ ".contests": 1}` over the older
schema; `key` is inserted verbatim (the older revision does not lower-case
the platform argument, util.go:116). -/
def OldRev.projectContests (u : OldRev.UserSchema) (key : String) : OldRev.UserSchema :=
  { Email := "", FirstName := "", LastName := "", Password := "", RefreshToken := "",
    PlatformData :=
      match keyToField key with
      | some f =>
          OldRev.Platforms.zero.set f
            { OldRev.PlatformDataModel.zero with Contests := (u.PlatformData.get f).Contests }
      | none => OldRev.Platforms.zero }

/-- Projection `{"platformData." ++ key ++ ".submissions": 1}` over the
older schema. -/
def OldRev.projectSubmissions (u : OldRev.UserSchema) (key : String) : OldRev.UserSchema :=
  { Email := "", FirstName := "", LastName := "", Password := "", RefreshToken := "",
    PlatformData :=
      match keyToField key with
      | some f =>
          OldRev.Platforms.zero.set f
            { OldRev.PlatformDataModel.zero with
                Submissions := (u.PlatformData.get f).Submissions }
      | none => OldRev.Platforms.zero }

/-- `GetLastContest` of the older revision (util.go:111-132): the platform
argument appears only in the projection path; the in-memory access is
hardcoded to `userObject.PlatformData.Leetcode.Contests`, indexed at
`len-1` with no empty-slice guard. -/
def OldRev.GetLastContest (store : OldRev.Store) (email platform : String) :
    Except GoError OldRev.ContestData :=
  match OldRev.findOne store email with
  | none => .error (.goFatal "Couldnt find user")
  | some documentResult =>
    let userObject := OldRev.projectContests documentResult platform
    match userObject.PlatformData.Leetcode.Contests.getLast? with
    | some c => .ok c
    | none => .error (.goPanic "runtime error: index out of range")

/-- `GetLastSubmission` of the older revision (util.go:142-163), hardcoded
to `userObject.PlatformData.Leetcode.Submissions`. -/
def OldRev.GetLastSubmission (store : OldRev.Store) (email platform : String) :
    Except GoError SubmissionData :=
  match OldRev.findOne store email with
  | none => .error (.goFatal "Couldnt find user")
  | some documentResult =>
    let userObject := OldRev.projectSubmissions documentResult platform
    match userObject.PlatformData.Leetcode.Submissions.getLast? with
    | some s => .ok s
    | none => .error (.goPanic "runtime error: index out of range")

/-- Test fixture: the contest of the spec's section 8 scenario. -/
def tcW : ContestData :=
  { ContestName := "Weekly 300", ContestDate := "2022-06-05", Rank := 1500, Rating := 1600,
    Solved := 3, ContestID := "300" }

/-- Test fixture: a second contest. -/
def tcX : ContestData :=
  { ContestName := "Weekly 301", ContestDate := "2022-06-12", Rank := 900, Rating := 1650,
    Solved := 4, ContestID := "301" }

/-- Test fixture: a third contest. -/
def tcY : ContestData :=
  { ContestName := "Weekly 302", ContestDate := "2022-06-19", Rank := 700, Rating := 1700,
    Solved := 4, ContestID := "302" }

/-- Test fixture: a fourth contest. -/
def tcZ : ContestData :=
  { ContestName := "Weekly 303", ContestDate := "2022-06-26", Rank := 600, Rating := 1750,
    Solved := 2, ContestID := "303" }

/-- Test fixture: a contest whose `ContestID` is not numeric. -/
def tcBad : ContestData :=
  { ContestName := "Starters 42", ContestDate := "2022-07-01", Rank := 10, Rating := 1800,
    Solved := 1, ContestID := "abc" }

/-- Test fixture: a contest whose `ContestID` is the spec's round-trip
example "12345". -/
def tc12345 : ContestData :=
  { ContestName := "Round 12345", ContestDate := "2022-07-02", Rank := 11, Rating := 1900,
    Solved := 2, ContestID := "12345" }

/-- Test fixture: one submission. -/
def subW : SubmissionData :=
  { ProblemUrl := "https://leetcode.com/problems/two-sum", ProblemName := "Two Sum",
    SubmissionDate := "2022-06-05", SubmissionLanguage := "go", SubmissionStatus := "Accepted",
    CodeUrl := "https://leetcode.com/submissions/1" }

/-- Test fixture: a user whose platform logs are all empty. -/
def userEmptyLogs : UserSchema :=
  { Email := "a@x.com", FirstName := "Ada", LastName := "X", Password := "pw",
    PlatformData := Platforms.zero, RefreshToken := "tok" }

/-- Test fixture: a one-user store with empty logs. -/
def storeEmptyLogs : Store := [userEmptyLogs]

/-- Test fixture: a user whose leetcode contest log is `[tcW]`. -/
def userLC : UserSchema :=
  { userEmptyLogs with
      PlatformData :=
        Platforms.zero.set .leetcode { PlatformDataModel.zero with Contests := [tcW] } }

/-- Test fixture: a one-user store whose leetcode contest log is `[tcW]`. -/
def storeLC : Store := [userLC]

/-- Test fixture: a user with an empty leetcode contest log but a nonempty
leetcode submission log. -/
def userSubOnly : UserSchema :=
  { userEmptyLogs with
      PlatformData :=
        Platforms.zero.set .leetcode { PlatformDataModel.zero with Submissions := [subW] } }

/-- Test fixture: a one-user store holding `userSubOnly`. -/
def storeSubOnly : Store := [userSubOnly]

/-- Test fixture: an older-revision contest stored under leetcode. -/
def OldRev.lcContest : OldRev.ContestData :=
  { ContestName := "LC Weekly", Rank := 12, OldRating := 1500, NewRating := 1550, ContestID := 7 }

/-- Test fixture: an older-revision contest stored under codeforces. -/
def OldRev.cfContest : OldRev.ContestData :=
  { ContestName := "CF Round", Rank := 34, OldRating := 1400, NewRating := 1460, ContestID := 8 }

/-- Test fixture: an older-revision user with one leetcode and one
codeforces contest. -/
def OldRev.user1 : OldRev.UserSchema :=
  { Email := "a@x.com", FirstName := "Ada", LastName := "X", Password := "pw",
    RefreshToken := "tok",
    PlatformData :=
      { OldRev.Platforms.zero with
          Leetcode := { OldRev.PlatformDataModel.zero with Contests := [OldRev.lcContest] },
          Codeforces := { OldRev.PlatformDataModel.zero with Contests := [OldRev.cfContest] } } }

/-- Test fixture: a one-user store for the older revision. -/
def OldRev.store1 : OldRev.Store := [OldRev.user1]

theorem Platforms.get_set_self (p : Platforms) (f : PlatformField) (v : PlatformDataModel) :
    (p.set f v).get f = v := by
  cases f <;> rfl

theorem Platforms.get_set_ne (p : Platforms) (f g : PlatformField) (v : PlatformDataModel)
    (h : g ≠ f) : (p.set f v).get g = p.get g := by
  cases f <;> cases g <;> first | rfl | exact absurd rfl h

theorem Platforms.set_get_self (p : Platforms) (f : PlatformField) :
    p.set f (p.get f) = p := by
  cases f <;> rfl

theorem fieldByName_eq_some (s : String) (f : PlatformField) (h : fieldByName s = some f) :
    s = goFieldName f := by
  unfold fieldByName at h
  split_ifs at h <;>
    injection h with h0 <;> subst h0 <;> simp only [goFieldName] <;> assumption

theorem keyToField_eq_some (s : String) (f : PlatformField) (h : keyToField s = some f) :
    s = persistedKey f := by
  unfold keyToField at h
  split_ifs at h <;>
    injection h with h0 <;> subst h0 <;> simp only [persistedKey] <;> assumption

theorem persistedKey_injective {g f : PlatformField} (h : persistedKey g = persistedKey f) :
    g = f := by
  cases g <;> cases f <;> revert h <;> decide

theorem keyToField_persistedKey (f : PlatformField) : keyToField (persistedKey f) = some f := by
  cases f <;> rfl

theorem stringsToLower_goFieldName (f : PlatformField) :
    stringsToLower (goFieldName f) = persistedKey f := by
  cases f <;> rfl

theorem keyToField_stringsToLower (s : String) (f : PlatformField)
    (h : fieldByName s = some f) : keyToField (stringsToLower s) = some f := by
  rw [fieldByName_eq_some s f h, stringsToLower_goFieldName, keyToField_persistedKey]

theorem findOne_updateFirst_self (store : Store) (email : String) (g : UserSchema → UserSchema)
    (hg : ∀ v, (g v).Email = v.Email) (u : UserSchema) (hu : findOne store email = some u) :
    findOne (updateFirst store email g) email = some (g u) := by
  induction store with
  | nil => simp [findOne] at hu
  | cons v rest ih =>
    by_cases hv : v.Email = email
    · simp only [findOne] at hu
      rw [if_pos hv] at hu
      injection hu with hu0
      subst hu0
      simp only [updateFirst]
      rw [if_pos hv]
      simp only [findOne]
      rw [if_pos (by rw [hg v]; exact hv)]
    · simp only [findOne] at hu
      rw [if_neg hv] at hu
      simp only [updateFirst]
      rw [if_neg hv]
      simp only [findOne]
      rw [if_neg hv]
      exact ih hu

theorem findOne_updateFirst_ne (store : Store) (email e' : String)
    (g : UserSchema → UserSchema) (hg : ∀ v, (g v).Email = v.Email) (h : e' ≠ email) :
    findOne (updateFirst store email g) e' = findOne store e' := by
  induction store with
  | nil => rfl
  | cons v rest ih =>
    by_cases hv : v.Email = email
    · simp only [updateFirst]
      rw [if_pos hv]
      simp only [findOne]
      rw [if_neg (fun hh : (g v).Email = e' => h (by rw [hg v, hv] at hh; exact hh.symm))]
      rw [if_neg (fun hh : v.Email = e' => h (by rw [hv] at hh; exact hh.symm))]
    · simp only [updateFirst]
      rw [if_neg hv]
      simp only [findOne]
      rw [ih]

theorem updateFirst_of_findOne_none (store : Store) (email : String)
    (g : UserSchema → UserSchema) (h : findOne store email = none) :
    updateFirst store email g = store := by
  induction store with
  | nil => rfl
  | cons v rest ih =>
    by_cases hv : v.Email = email
    · simp only [findOne] at h
      rw [if_pos hv] at h
      exact absurd h (by simp)
    · simp only [findOne] at h
      rw [if_neg hv] at h
      simp only [updateFirst]
      rw [if_neg hv, ih h]

theorem pushContests_Email (u : UserSchema) (key : String) (l : List ContestData) :
    (pushContests u key l).Email = u.Email := by
  unfold pushContests
  cases keyToField key <;> rfl

theorem pushSubmissions_Email (u : UserSchema) (key : String) (l : List SubmissionData) :
    (pushSubmissions u key l).Email = u.Email := by
  unfold pushSubmissions
  cases keyToField key <;> rfl

theorem pushContests_nil (u : UserSchema) (key : String) : pushContests u key [] = u := by
  unfold pushContests
  cases keyToField key with
  | none => rfl
  | some f =>
    show { u with PlatformData := _ } = u
    rw [List.append_nil]
    rw [Platforms.set_get_self]

theorem pushSubmissions_nil (u : UserSchema) (key : String) : pushSubmissions u key [] = u := by
  unfold pushSubmissions
  cases keyToField key with
  | none => rfl
  | some f =>
    show { u with PlatformData := _ } = u
    rw [List.append_nil]
    rw [Platforms.set_get_self]

theorem pushContests_get (u : UserSchema) (key : String) (f : PlatformField)
    (hk : keyToField key = some f) (l : List ContestData) :
    (pushContests u key l).PlatformData.get f =
      { u.PlatformData.get f with Contests := (u.PlatformData.get f).Contests ++ l } := by
  unfold pushContests
  rw [hk]
  exact Platforms.get_set_self _ _ _

theorem pushSubmissions_get (u : UserSchema) (key : String) (f : PlatformField)
    (hk : keyToField key = some f) (l : List SubmissionData) :
    (pushSubmissions u key l).PlatformData.get f =
      { u.PlatformData.get f with Submissions := (u.PlatformData.get f).Submissions ++ l } := by
  unfold pushSubmissions
  rw [hk]
  exact Platforms.get_set_self _ _ _

theorem pushContests_get_ne (u : UserSchema) (key : String) (f g : PlatformField)
    (hk : keyToField key = some f) (hg : g ≠ f) (l : List ContestData) :
    (pushContests u key l).PlatformData.get g = u.PlatformData.get g := by
  unfold pushContests
  rw [hk]
  exact Platforms.get_set_ne _ _ _ _ hg

theorem pushSubmissions_get_ne (u : UserSchema) (key : String) (f g : PlatformField)
    (hk : keyToField key = some f) (hg : g ≠ f) (l : List SubmissionData) :
    (pushSubmissions u key l).PlatformData.get g = u.PlatformData.get g := by
  unfold pushSubmissions
  rw [hk]
  exact Platforms.get_set_ne _ _ _ _ hg

theorem GetLastContest_found (store : Store) (email platform : String) (f : PlatformField)
    (u : UserSchema) (hf : fieldByName platform = some f) (hu : findOne store email = some u) :
    GetLastContest store email platform =
      .ok ((u.PlatformData.get f).Contests.getLastD ContestData.zero) := by
  have hk := keyToField_stringsToLower platform f hf
  unfold GetLastContest
  rw [hu]
  unfold projectContests getPlatformDataDynamically
  rw [hk, hf]
  simp only [Platforms.get_set_self]
  by_cases hc : (u.PlatformData.get f).Contests.length = 0
  · rw [if_pos hc]
    rw [List.length_eq_zero.mp hc]
    rfl
  · rw [if_neg hc]

theorem GetLastSubmission_found (store : Store) (email platform : String) (f : PlatformField)
    (u : UserSchema) (hf : fieldByName platform = some f) (hu : findOne store email = some u) :
    GetLastSubmission store email platform =
      .ok ((u.PlatformData.get f).Submissions.getLastD SubmissionData.zero) := by
  have hk := keyToField_stringsToLower platform f hf
  unfold GetLastSubmission
  rw [hu]
  unfold projectSubmissions getPlatformDataDynamically
  rw [hk, hf]
  simp only [Platforms.get_set_self]
  by_cases hc : (u.PlatformData.get f).Submissions.length = 0
  · rw [if_pos hc]
    rw [List.length_eq_zero.mp hc]
    rfl
  · rw [if_neg hc]

theorem GetLastContest_never_ok_of_badName (store : Store) (email platform : String)
    (hf : fieldByName platform = none) (c : ContestData) :
    GetLastContest store email platform ≠ .ok c := by
  unfold GetLastContest
  cases hfo : findOne store email with
  | none => simp
  | some u =>
    unfold getPlatformDataDynamically
    rw [hf]
    simp

theorem GetLastSubmission_never_ok_of_badName (store : Store) (email platform : String)
    (hf : fieldByName platform = none) (s : SubmissionData) :
    GetLastSubmission store email platform ≠ .ok s := by
  unfold GetLastSubmission
  cases hfo : findOne store email with
  | none => simp
  | some u =>
    unfold getPlatformDataDynamically
    rw [hf]
    simp

theorem FindContestsandSubmissionsFromDB_found (store : Store) (email platform : String)
    (f : PlatformField) (u : UserSchema)
    (hf : fieldByName platform = some f) (hu : findOne store email = some u) :
    FindContestsandSubmissionsFromDB store email platform =
      .ok ((u.PlatformData.get f).Contests, (u.PlatformData.get f).Submissions) := by
  unfold FindContestsandSubmissionsFromDB getPlatformDataDynamically
  rw [hu, hf]

/-- C1: for every valid (email, platform), if the platform's contest log is
empty then `GetLastContest` returns the zero-valued `ContestData` without
failing (whatever the submissions log holds), and independently, if the
platform's submissions log is empty then `GetLastSubmission` returns the
zero-valued `SubmissionData` (whatever the contest log holds). -/
theorem getLast_empty_log_returns_zero (store : Store) (email platform : String)
    (u : UserSchema) (f : PlatformField)
    (hu : findOne store email = some u) (hf : fieldByName platform = some f) :
    ((u.PlatformData.get f).Contests = [] →
      GetLastContest store email platform = .ok ContestData.zero) ∧
    ((u.PlatformData.get f).Submissions = [] →
      GetLastSubmission store email platform = .ok SubmissionData.zero) := by
  constructor
  · intro hc
    have h1 := GetLastContest_found store email platform f u hf hu
    rw [hc] at h1
    exact h1
  · intro hs
    have h2 := GetLastSubmission_found store email platform f u hf hu
    rw [hs] at h2
    exact h2

/-- C1 witness: per-log independence at concrete stores — a user whose
leetcode contest log is empty while the submission log is nonempty still
gets the zero contest, and a user whose contest log is nonempty while the
submission log is empty still gets the zero submission. -/
theorem getLast_empty_log_returns_zero_witness :
    GetLastContest storeSubOnly "a@x.com" "Leetcode" = .ok ContestData.zero ∧
    GetLastSubmission storeLC "a@x.com" "Leetcode" = .ok SubmissionData.zero :=
  ⟨(getLast_empty_log_returns_zero storeSubOnly "a@x.com" "Leetcode" userSubOnly .leetcode
      rfl rfl).1 rfl,
   (getLast_empty_log_returns_zero storeLC "a@x.com" "Leetcode" userLC .leetcode
      rfl rfl).2 rfl⟩

/-- C2: appending `[c1, c2]` and then `[c3]` to a platform's contest log
extends the stored log by `c1, c2, c3` in order with all prior entries and
the submissions log intact; afterwards `GetLastContest` returns `c3` and
`FindContestsandSubmissionsFromDB` returns the full log ending in
`c1, c2, c3`. -/
theorem appendContests_appends_in_order (store : Store) (email platform : String)
    (f : PlatformField) (u : UserSchema)
    (hf : fieldByName platform = some f) (hu : findOne store email = some u)
    (c1 c2 c3 : ContestData) :
    (AppendContestData store email platform [c1, c2]).2 = .ok () ∧
    (AppendContestData (AppendContestData store email platform [c1, c2]).1
        email platform [c3]).2 = .ok () ∧
    (∃ u2, findOne (AppendContestData (AppendContestData store email platform [c1, c2]).1
          email platform [c3]).1 email = some u2 ∧
       (u2.PlatformData.get f).Contests = (u.PlatformData.get f).Contests ++ [c1, c2, c3] ∧
       (u2.PlatformData.get f).Submissions = (u.PlatformData.get f).Submissions) ∧
    GetLastContest (AppendContestData (AppendContestData store email platform [c1, c2]).1
        email platform [c3]).1 email platform = .ok c3 ∧
    FindContestsandSubmissionsFromDB (AppendContestData (AppendContestData store email
        platform [c1, c2]).1 email platform [c3]).1 email platform =
      .ok ((u.PlatformData.get f).Contests ++ [c1, c2, c3],
           (u.PlatformData.get f).Submissions) := by
  have hk := keyToField_stringsToLower platform f hf
  have hg1 : ∀ v, (pushContests v (stringsToLower platform) [c1, c2]).Email = v.Email :=
    fun v => pushContests_Email v _ _
  have hg2 : ∀ v, (pushContests v (stringsToLower platform) [c3]).Email = v.Email :=
    fun v => pushContests_Email v _ _
  have h1 : findOne (AppendContestData store email platform [c1, c2]).1 email
      = some (pushContests u (stringsToLower platform) [c1, c2]) :=
    findOne_updateFirst_self store email _ hg1 u hu
  have h2 : findOne (AppendContestData (AppendContestData store email platform [c1, c2]).1
        email platform [c3]).1 email
      = some (pushContests (pushContests u (stringsToLower platform) [c1, c2])
          (stringsToLower platform) [c3]) :=
    findOne_updateFirst_self _ email _ hg2 _ h1
  have hc2 : ((pushContests (pushContests u (stringsToLower platform) [c1, c2])
        (stringsToLower platform) [c3]).PlatformData.get f).Contests
      = (u.PlatformData.get f).Contests ++ [c1, c2, c3] := by
    rw [pushContests_get _ _ f hk, pushContests_get _ _ f hk]
    simp [List.append_assoc]
  have hs2 : ((pushContests (pushContests u (stringsToLower platform) [c1, c2])
        (stringsToLower platform) [c3]).PlatformData.get f).Submissions
      = (u.PlatformData.get f).Submissions := by
    rw [pushContests_get _ _ f hk, pushContests_get _ _ f hk]
  have h3 := GetLastContest_found _ email platform f _ hf h2
  rw [hc2] at h3
  have h4 : ((u.PlatformData.get f).Contests ++ [c1, c2, c3]).getLastD ContestData.zero
      = c3 := by
    simp
  rw [h4] at h3
  have h6 := FindContestsandSubmissionsFromDB_found _ email platform f _ hf h2
  rw [hc2, hs2] at h6
  exact ⟨rfl, rfl, ⟨_, h2, hc2, hs2⟩, h3, h6⟩

/-- C2 witness: starting from a leetcode log `[tcW]`, appending
`[tcX, tcY]` then `[tcZ]` makes the last contest `tcZ` and the full history
`[tcW, tcX, tcY, tcZ]`. -/
theorem appendContests_appends_in_order_witness :
    GetLastContest (AppendContestData (AppendContestData storeLC "a@x.com" "Leetcode"
        [tcX, tcY]).1 "a@x.com" "Leetcode" [tcZ]).1 "a@x.com" "Leetcode" = .ok tcZ ∧
    FindContestsandSubmissionsFromDB (AppendContestData (AppendContestData storeLC "a@x.com"
        "Leetcode" [tcX, tcY]).1 "a@x.com" "Leetcode" [tcZ]).1 "a@x.com" "Leetcode" =
      .ok ([tcW, tcX, tcY, tcZ], []) := by
  have h := appendContests_appends_in_order storeLC "a@x.com" "Leetcode" .leetcode userLC
    rfl rfl tcX tcY tcZ
  exact ⟨h.2.2.2.1, h.2.2.2.2⟩

/-- C3 counterexample: for the unknown email "ghost@x.com" over the empty
store, `AppendContestData` reports success (MongoDB's `UpdateOne` reports
no error when the filter matches nothing) and modifies nothing, and
`GetLastContest` does not return a `UserNotFound` error (it aborts the
process via `log.Fatalf`), refuting the claim that every read and append
operation returns an explicit `UserNotFound` failure. -/
theorem unknown_email_counterexample :
    (AppendContestData ([] : Store) "ghost@x.com" "Leetcode" [tcW]).2 = .ok () ∧
    (AppendContestData ([] : Store) "ghost@x.com" "Leetcode" [tcW]).1 = [] ∧
    findOne ([] : Store) "ghost@x.com" = none ∧
    GetLastContest ([] : Store) "ghost@x.com" "Leetcode" ≠ .error .userNotFound := by
  refine ⟨rfl, rfl, rfl, ?_⟩
  intro h
  injection h with h0
  exact absurd h0 (by decide)

/-- C3 (amended): for an unknown email, the read operations
(`GetLastContest`, `GetLastSubmission`, `FindContestsandSubmissionsFromDB`)
terminate the process via `log.Fatalf` instead of returning a `UserNotFound`
error, and the append operations (`AppendContestData`,
`AppendSubmissionData`) report success while leaving the store entirely
unchanged. -/
theorem unknown_email_fatal_reads_and_silent_appends (store : Store) (email platform : String)
    (h : findOne store email = none) (cs : List ContestData) (ss : List SubmissionData) :
    GetLastContest store email platform = .error (.goFatal "Couldnt find user") ∧
    GetLastSubmission store email platform = .error (.goFatal "Couldnt find user") ∧
    FindContestsandSubmissionsFromDB store email platform =
      .error (.goFatal "Couldnt find user") ∧
    AppendContestData store email platform cs = (store, .ok ()) ∧
    AppendSubmissionData store email platform ss = (store, .ok ()) := by
  refine ⟨?_, ?_, ?_, ?_, ?_⟩
  · unfold GetLastContest
    rw [h]
  · unfold GetLastSubmission
    rw [h]
  · unfold FindContestsandSubmissionsFromDB
    rw [h]
  · unfold AppendContestData
    rw [updateFirst_of_findOne_none store email _ h]
  · unfold AppendSubmissionData
    rw [updateFirst_of_findOne_none store email _ h]

/-- C3 witness: the amended behavior on the empty store. -/
theorem unknown_email_witness :
    GetLastContest ([] : Store) "ghost@x.com" "Atcoder" =
      .error (.goFatal "Couldnt find user") ∧
    AppendSubmissionData ([] : Store) "ghost@x.com" "Atcoder" [subW] = ([], .ok ()) := by
  have h := unknown_email_fatal_reads_and_silent_appends [] "ghost@x.com" "Atcoder" rfl [] [subW]
  exact ⟨h.1, h.2.2.2.2⟩

/-- C4 counterexample: on the out-of-set name "Gfg" the resolver panics
(the reflection call on a zero `reflect.Value`), it does not return an
`InvalidPlatform` error value. -/
theorem resolver_unknown_name_counterexample :
    getPlatformDataDynamically Platforms.zero "Gfg" =
      .error (.goPanic "reflect: call of reflect.Value.Interface on zero Value") ∧
    getPlatformDataDynamically Platforms.zero "Gfg" ≠ .error .invalidPlatform := by
  refine ⟨rfl, ?_⟩
  intro h
  injection h with h0
  exact absurd h0 (by decide)

/-- C4 (amended): on a platform name outside the enumerated field set the
resolver fails with a reflection panic (a process-level failure, not a
returned `InvalidPlatform` error), and no read operation built on it ever
returns data (in particular, never another platform's data and never a
zero-valued success). -/
theorem resolver_unknown_name_never_returns_data (p : Platforms) (store : Store)
    (email platform : String) (hf : fieldByName platform = none) :
    getPlatformDataDynamically p platform =
      .error (.goPanic "reflect: call of reflect.Value.Interface on zero Value") ∧
    (∀ pd, getPlatformDataDynamically p platform ≠ .ok pd) ∧
    (∀ c, GetLastContest store email platform ≠ .ok c) ∧
    (∀ s, GetLastSubmission store email platform ≠ .ok s) := by
  have h0 : getPlatformDataDynamically p platform =
      .error (.goPanic "reflect: call of reflect.Value.Interface on zero Value") := by
    unfold getPlatformDataDynamically
    rw [hf]
  refine ⟨h0, ?_, ?_, ?_⟩
  · intro pd hpd
    rw [h0] at hpd
    injection hpd
  · exact fun c => GetLastContest_never_ok_of_badName store email platform hf c
  · exact fun s => GetLastSubmission_never_ok_of_badName store email platform hf s

/-- C4 witness: the amended behavior at the concrete name "Gfg". -/
theorem resolver_unknown_name_witness :
    fieldByName "Gfg" = none ∧
    GetLastContest storeLC "a@x.com" "Gfg" ≠ .ok ContestData.zero :=
  ⟨rfl, (resolver_unknown_name_never_returns_data Platforms.zero storeLC "a@x.com" "Gfg"
    rfl).2.2.1 ContestData.zero⟩

/-- C5 counterexample: with a stored leetcode log `[tcW]`, the canonical
name "Leetcode" returns `tcW` but the upper-case spelling "LEETCODE" of the
same platform panics in the resolver, although both lower-case to the same
storage key — the same platform's data is not addressed regardless of
case. -/
theorem case_insensitivity_counterexample :
    GetLastContest storeLC "a@x.com" "Leetcode" = .ok tcW ∧
    GetLastContest storeLC "a@x.com" "LEETCODE" =
      .error (.goPanic "reflect: call of reflect.Value.Interface on zero Value") ∧
    stringsToLower "LEETCODE" = stringsToLower "Leetcode" :=
  ⟨rfl, rfl, rfl⟩

/-- C5 (amended): every operation lower-cases the platform name when
building the storage path, but the in-memory resolver matches the raw name
case-sensitively against the exported Go field names; hence exactly the
canonical capitalized spelling addresses a platform's data end-to-end, and
any other casing of the same name is rejected (with a panic) by the
resolver rather than addressing the same data. -/
theorem storage_lowercased_resolver_case_sensitive (store : Store) (email : String)
    (u : UserSchema) (platform : String) (f : PlatformField)
    (hu : findOne store email = some u) (hf : fieldByName platform = some f) :
    keyToField (stringsToLower platform) = some f ∧
    GetLastContest store email platform =
      .ok ((u.PlatformData.get f).Contests.getLastD ContestData.zero) ∧
    (∀ other : String, stringsToLower other = stringsToLower platform → other ≠ platform →
       ∀ c, GetLastContest store email other ≠ .ok c) := by
  refine ⟨keyToField_stringsToLower platform f hf,
    GetLastContest_found store email platform f u hf hu, ?_⟩
  intro other hl hne c hok
  cases hfo : fieldByName other with
  | none => exact GetLastContest_never_ok_of_badName store email other hfo c hok
  | some g =>
    have h1 : other = goFieldName g := fieldByName_eq_some other g hfo
    have h2 : platform = goFieldName f := fieldByName_eq_some platform f hf
    have h3 : persistedKey g = persistedKey f := by
      rw [← stringsToLower_goFieldName, ← stringsToLower_goFieldName, ← h1, ← h2]
      exact hl
    have h4 : g = f := persistedKey_injective h3
    subst h4
    exact hne (h1.trans h2.symm)

/-- C5 witness: the canonical "Leetcode" works; the variant spelling
"LEetcode" (same lower-casing, different string) does not address the
data. -/
theorem storage_lowercased_resolver_case_sensitive_witness :
    keyToField (stringsToLower "Leetcode") = some PlatformField.leetcode ∧
    GetLastContest storeLC "a@x.com" "Leetcode" = .ok tcW ∧
    GetLastContest storeLC "a@x.com" "LEetcode" ≠ .ok tcW := by
  have h := storage_lowercased_resolver_case_sensitive storeLC "a@x.com" userLC "Leetcode"
    .leetcode rfl rfl
  exact ⟨h.1, h.2.1, h.2.2 "LEetcode" rfl (by decide) tcW⟩

theorem parseFloat_12345 : parseFloat? "12345" = some 12345 := by
  show some ((1 : Rat) * (((12345 : Nat) : Rat) + ((0 : Nat) : Rat) / ((1 : Nat) : Rat))) =
    some 12345
  norm_num

/-- C6 counterexample: a stored contest with the non-numeric contest id
"abc" makes the formatter abort the process (`log.Fatalf`) — it does not
return a `MalformedRecord` error to the caller. -/
theorem format_nonNumeric_contestId_counterexample :
    formatContestSchemaToGRPCContest [tcBad] =
      .error (.goFatal "Couldnt parse contestID to float") ∧
    formatContestSchemaToGRPCContest [tcBad] ≠ .error .malformedRecord := by
  refine ⟨rfl, ?_⟩
  intro h
  injection h with h0
  exact absurd h0 (by decide)

/-- C6 (amended): the formatter parses the string-typed contest id to
numeric form ("12345" parses to the number 12345 and is emitted as the
numeric `ContestId`); a record whose contest id does not parse terminates
the hosting process via `log.Fatalf` (it is not coerced to zero, and no
`MalformedRecord` error is returned to the caller). -/
theorem contestId_parse_at_boundary (c : ContestData) (cs : List ContestData) :
    parseFloat? "12345" = some 12345 ∧
    (parseFloat? c.ContestID = none →
      formatContestSchemaToGRPCContest (c :: cs) =
        .error (.goFatal "Couldnt parse contestID to float")) ∧
    (∀ q tail, parseFloat? c.ContestID = some q →
      formatContestSchemaToGRPCContest cs = .ok tail →
      formatContestSchemaToGRPCContest (c :: cs) =
        .ok ({ ContestName := c.ContestName, Rank := c.Rank, Rating := c.Rating,
               ContestId := q, ContestDate := c.ContestDate } :: tail)) := by
  refine ⟨parseFloat_12345, ?_, ?_⟩
  · intro h
    unfold formatContestSchemaToGRPCContest
    rw [h]
  · intro q tail hq htail
    unfold formatContestSchemaToGRPCContest
    rw [hq, htail]

/-- C6 witness: the amended behavior at the concrete records `tcBad`
(contest id "abc") and `tc12345` (contest id "12345"). -/
theorem contestId_parse_at_boundary_witness :
    parseFloat? tcBad.ContestID = none ∧
    formatContestSchemaToGRPCContest [tcBad] =
      .error (.goFatal "Couldnt parse contestID to float") ∧
    formatContestSchemaToGRPCContest [tc12345] =
      .ok [{ ContestName := "Round 12345", Rank := 11, Rating := 1900, ContestId := 12345,
             ContestDate := "2022-07-02" }] := by
  have h1 := contestId_parse_at_boundary tcBad []
  have h2 := contestId_parse_at_boundary tc12345 []
  exact ⟨rfl, h1.2.1 rfl, h2.2.2 12345 [] parseFloat_12345 rfl⟩

/-- C7: the Response Formatter is a pure per-record transformation: each
`SubmissionData` maps exactly to {date, language, problemStatus,
problemTitle, problemLink, codeLink} from {SubmissionDate,
SubmissionLanguage, SubmissionStatus, ProblemName, ProblemUrl, CodeUrl},
and (whenever every contest id parses) each `ContestData` maps exactly to
{contestName, rank, rating, numeric contestId, contestDate}, one output
record per input record in input order. -/
theorem formatter_exact_field_mapping (subs : List SubmissionData)
    (contests : List ContestData) (h : ∀ c ∈ contests, parseFloat? c.ContestID ≠ none) :
    List.Forall₂ (fun (s : SubmissionData) (g : Submission) =>
        g.Date = s.SubmissionDate ∧ g.Language = s.SubmissionLanguage ∧
        g.ProblemStatus = s.SubmissionStatus ∧ g.ProblemTitle = s.ProblemName ∧
        g.ProblemLink = s.ProblemUrl ∧ g.CodeLink = s.CodeUrl)
      subs (formatSubmissionSchemaToGRPCSubmission subs) ∧
    ∃ out : List Contest, formatContestSchemaToGRPCContest contests = .ok out ∧
      List.Forall₂ (fun (c : ContestData) (g : Contest) =>
        g.ContestName = c.ContestName ∧ g.Rank = c.Rank ∧ g.Rating = c.Rating ∧
        parseFloat? c.ContestID = some g.ContestId ∧ g.ContestDate = c.ContestDate)
      contests out := by
  constructor
  · induction subs with
    | nil => exact List.Forall₂.nil
    | cons s rest ih => exact List.Forall₂.cons ⟨rfl, rfl, rfl, rfl, rfl, rfl⟩ ih
  · clear subs
    induction contests with
    | nil => exact ⟨[], rfl, List.Forall₂.nil⟩
    | cons c rest ih =>
      have hc := h c (List.mem_cons_self c rest)
      cases hq : parseFloat? c.ContestID with
      | none => exact absurd hq hc
      | some q =>
        obtain ⟨tail, htail, hf2⟩ := ih (fun x hx => h x (List.mem_cons_of_mem c hx))
        refine ⟨{ ContestName := c.ContestName, Rank := c.Rank, Rating := c.Rating,
                  ContestId := q, ContestDate := c.ContestDate } :: tail, ?_, ?_⟩
        · unfold formatContestSchemaToGRPCContest
          rw [hq, htail]
        · exact List.Forall₂.cons ⟨rfl, rfl, rfl, by rw [hq], rfl⟩ hf2

/-- C7 witness: the mapping at one concrete submission and one concrete
contest. -/
theorem formatter_exact_field_mapping_witness :
    (∀ c ∈ [tc12345], parseFloat? c.ContestID ≠ none) ∧
    (List.Forall₂ (fun (s : SubmissionData) (g : Submission) =>
        g.Date = s.SubmissionDate ∧ g.Language = s.SubmissionLanguage ∧
        g.ProblemStatus = s.SubmissionStatus ∧ g.ProblemTitle = s.ProblemName ∧
        g.ProblemLink = s.ProblemUrl ∧ g.CodeLink = s.CodeUrl)
      [subW] (formatSubmissionSchemaToGRPCSubmission [subW]) ∧
    ∃ out : List Contest, formatContestSchemaToGRPCContest [tc12345] = .ok out ∧
      List.Forall₂ (fun (c : ContestData) (g : Contest) =>
        g.ContestName = c.ContestName ∧ g.Rank = c.Rank ∧ g.Rating = c.Rating ∧
        parseFloat? c.ContestID = some g.ContestId ∧ g.ContestDate = c.ContestDate)
      [tc12345] out) := by
  have hp : ∀ c ∈ [tc12345], parseFloat? c.ContestID ≠ none := by
    intro c hc
    rw [List.mem_singleton.mp hc]
    rw [show parseFloat? tc12345.ContestID = some 12345 from parseFloat_12345]
    simp
  exact ⟨hp, formatter_exact_field_mapping [subW] [tc12345] hp⟩

/-- C8 counterexample: the append path does not bound its wait — with the
resources returned by `OpenDatabaseConnection`, `AppendContestData` passes
`context.TODO()`, which carries no timeout, to the driver. -/
theorem append_context_unbounded_counterexample :
    GoContext.isBounded
      (AppendContestDataCtx (OpenDatabaseConnection "mongodb://localhost:27017")) = false ∧
    AppendContestDataCtx (OpenDatabaseConnection "mongodb://localhost:27017") =
      GoContext.todo :=
  ⟨rfl, rfl⟩

/-- C8 (amended): `OpenDatabaseConnection` creates one context with a
10-second timeout at connection time; the read operations `GetLastContest`
and `GetLastSubmission` pass that connection-scoped context to the driver,
while `AppendContestData`, `AppendSubmissionData` and
`FindContestsandSubmissionsFromDB` pass `context.TODO()`, which carries no
time bound; no `StoreUnavailable` error is surfaced anywhere (timeouts, like
every driver error, hit `log.Fatalf`). -/
theorem per_operation_context_usage (mongoURI : String) :
    (OpenDatabaseConnection mongoURI).ctx = GoContext.withTimeout .background 10 ∧
    GetLastContestCtx (OpenDatabaseConnection mongoURI) =
      GoContext.withTimeout .background 10 ∧
    GetLastSubmissionCtx (OpenDatabaseConnection mongoURI) =
      GoContext.withTimeout .background 10 ∧
    GoContext.isBounded (GetLastContestCtx (OpenDatabaseConnection mongoURI)) = true ∧
    AppendContestDataCtx (OpenDatabaseConnection mongoURI) = GoContext.todo ∧
    AppendSubmissionDataCtx (OpenDatabaseConnection mongoURI) = GoContext.todo ∧
    FindContestsandSubmissionsFromDBCtx (OpenDatabaseConnection mongoURI) = GoContext.todo ∧
    GoContext.isBounded GoContext.todo = false :=
  ⟨rfl, rfl, rfl, rfl, rfl, rfl, rfl, rfl⟩

theorem OldRev.Platforms.set_ne_leetcode (p : OldRev.Platforms) (g : PlatformField)
    (v : OldRev.PlatformDataModel) (h : g ≠ .leetcode) :
    (OldRev.Platforms.set p g v).Leetcode = p.Leetcode := by
  cases g <;> first | exact absurd rfl h | rfl

/-- C9 counterexample: in the older revision, with a user holding a
nonempty leetcode log (last element `OldRev.lcContest`) and a nonempty
codeforces log, requesting platform "codeforces" neither returns the
Leetcode log's last element nor the requested platform's data — the
projection fetched only the codeforces field while the in-memory access
reads the (empty, unfetched) Leetcode field, so the index `len-1` panics. -/
theorem oldRev_codeforces_counterexample :
    OldRev.user1.PlatformData.Leetcode.Contests.getLast? = some OldRev.lcContest ∧
    OldRev.GetLastContest OldRev.store1 "a@x.com" "codeforces" =
      .error (.goPanic "runtime error: index out of range") ∧
    OldRev.GetLastContest OldRev.store1 "a@x.com" "codeforces" ≠ .ok OldRev.lcContest ∧
    OldRev.GetLastContest OldRev.store1 "a@x.com" "codeforces" ≠ .ok OldRev.cfContest := by
  refine ⟨rfl, rfl, ?_, ?_⟩ <;> intro h <;> injection h

/-- C9 (amended): in the older revision the platform argument is used only
to build the projection path (inserted verbatim); the in-memory access is
hardcoded to the Leetcode field.  Because the projection fetches only the
requested path, the argument "leetcode" (the persisted key) returns the
last element of the Leetcode log (or panics when that log is empty), while
every other argument — other platforms' keys and other casings alike —
leaves the decoded Leetcode field empty and panics on the out-of-range
index; the requested platform's own data is never returned. -/
theorem oldRev_getLast_hardcoded_leetcode (store : OldRev.Store) (email : String)
    (u : OldRev.UserSchema) (hu : OldRev.findOne store email = some u) (platform : String) :
    (platform = "leetcode" →
       OldRev.GetLastContest store email platform =
         (match u.PlatformData.Leetcode.Contests.getLast? with
          | some c => .ok c
          | none => .error (.goPanic "runtime error: index out of range")) ∧
       OldRev.GetLastSubmission store email platform =
         (match u.PlatformData.Leetcode.Submissions.getLast? with
          | some s => .ok s
          | none => .error (.goPanic "runtime error: index out of range"))) ∧
    (platform ≠ "leetcode" →
       OldRev.GetLastContest store email platform =
         .error (.goPanic "runtime error: index out of range") ∧
       OldRev.GetLastSubmission store email platform =
         .error (.goPanic "runtime error: index out of range")) := by
  constructor
  · intro hp
    subst hp
    constructor
    · unfold OldRev.GetLastContest
      rw [hu]
      rfl
    · unfold OldRev.GetLastSubmission
      rw [hu]
      rfl
  · intro hp
    cases hk : keyToField platform with
    | none =>
      constructor
      · unfold OldRev.GetLastContest OldRev.projectContests
        rw [hu]
        simp only [hk]
        rfl
      · unfold OldRev.GetLastSubmission OldRev.projectSubmissions
        rw [hu]
        simp only [hk]
        rfl
    | some g =>
      have hg : g ≠ .leetcode := by
        intro hgl
        exact hp ((keyToField_eq_some platform g hk).trans (by rw [hgl]; rfl))
      constructor
      · unfold OldRev.GetLastContest OldRev.projectContests
        rw [hu]
        simp only [hk]
        rw [OldRev.Platforms.set_ne_leetcode _ g _ hg]
        rfl
      · unfold OldRev.GetLastSubmission OldRev.projectSubmissions
        rw [hu]
        simp only [hk]
        rw [OldRev.Platforms.set_ne_leetcode _ g _ hg]
        rfl

/-- C9 witness: on the concrete store, "leetcode" yields the Leetcode log's
last element while "atcoder" panics. -/
theorem oldRev_getLast_hardcoded_leetcode_witness :
    OldRev.GetLastContest OldRev.store1 "a@x.com" "leetcode" = .ok OldRev.lcContest ∧
    OldRev.GetLastContest OldRev.store1 "a@x.com" "atcoder" =
      .error (.goPanic "runtime error: index out of range") := by
  have h1 := (oldRev_getLast_hardcoded_leetcode OldRev.store1 "a@x.com" OldRev.user1 rfl
    "leetcode").1 rfl
  have h2 := (oldRev_getLast_hardcoded_leetcode OldRev.store1 "a@x.com" OldRev.user1 rfl
    "atcoder").2 (by decide)
  exact ⟨h1.1, h2.1⟩

theorem updateFirst_id (store : Store) (email : String) :
    updateFirst store email (fun u => u) = store := by
  induction store with
  | nil => rfl
  | cons v rest ih =>
    simp only [updateFirst]
    by_cases hv : v.Email = email
    · rw [if_pos hv]
    · rw [if_neg hv, ih]

theorem pushContests_eq (u : UserSchema) (key : String) (f : PlatformField)
    (hk : keyToField key = some f) (l : List ContestData) :
    pushContests u key l =
      { u with PlatformData := u.PlatformData.set f ({ (u.PlatformData.get f) with Contests := (u.PlatformData.get f).Contests ++ l }) } := by
  unfold pushContests
  rw [hk]

theorem pushSubmissions_eq (u : UserSchema) (key : String) (f : PlatformField)
    (hk : keyToField key = some f) (l : List SubmissionData) :
    pushSubmissions u key l =
      { u with PlatformData := u.PlatformData.set f ({ (u.PlatformData.get f) with Submissions := (u.PlatformData.get f).Submissions ++ l }) } := by
  unfold pushSubmissions
  rw [hk]

/-- C10: an append with the empty input sequence reports success and leaves
the store entirely unchanged; in general an append reports success, leaves
every other user's document untouched, and rewrites the matched document
only at the single targeted (platform, log) array path — email, profile
fields, the platform's handle/totalSolved/ranking, the platform's other
log, and every other platform's sub-record are unchanged, while the
targeted log becomes the old log with the new entries appended. -/
theorem append_frame_condition (store : Store) (email platform : String) (f : PlatformField)
    (hf : keyToField (stringsToLower platform) = some f)
    (cs : List ContestData) (ss : List SubmissionData) :
    AppendContestData store email platform [] = (store, .ok ()) ∧
    AppendSubmissionData store email platform [] = (store, .ok ()) ∧
    (AppendContestData store email platform cs).2 = .ok () ∧
    (AppendSubmissionData store email platform ss).2 = .ok () ∧
    (∀ e', e' ≠ email →
       findOne (AppendContestData store email platform cs).1 e' = findOne store e') ∧
    (∀ e', e' ≠ email →
       findOne (AppendSubmissionData store email platform ss).1 e' = findOne store e') ∧
    (∀ u, findOne store email = some u →
       findOne (AppendContestData store email platform cs).1 email
           = some (pushContests u (stringsToLower platform) cs) ∧
       (pushContests u (stringsToLower platform) cs).Email = u.Email ∧
       (pushContests u (stringsToLower platform) cs).FirstName = u.FirstName ∧
       (pushContests u (stringsToLower platform) cs).LastName = u.LastName ∧
       (pushContests u (stringsToLower platform) cs).Password = u.Password ∧
       (pushContests u (stringsToLower platform) cs).RefreshToken = u.RefreshToken ∧
       (∀ g, g ≠ f →
          (pushContests u (stringsToLower platform) cs).PlatformData.get g
            = u.PlatformData.get g) ∧
       ((pushContests u (stringsToLower platform) cs).PlatformData.get f).Handle
           = (u.PlatformData.get f).Handle ∧
       ((pushContests u (stringsToLower platform) cs).PlatformData.get f).TotalSolved
           = (u.PlatformData.get f).TotalSolved ∧
       ((pushContests u (stringsToLower platform) cs).PlatformData.get f).Ranking
           = (u.PlatformData.get f).Ranking ∧
       ((pushContests u (stringsToLower platform) cs).PlatformData.get f).Submissions
           = (u.PlatformData.get f).Submissions ∧
       ((pushContests u (stringsToLower platform) cs).PlatformData.get f).Contests
           = (u.PlatformData.get f).Contests ++ cs) ∧
    (∀ u, findOne store email = some u →
       findOne (AppendSubmissionData store email platform ss).1 email
           = some (pushSubmissions u (stringsToLower platform) ss) ∧
       (pushSubmissions u (stringsToLower platform) ss).Email = u.Email ∧
       (∀ g, g ≠ f →
          (pushSubmissions u (stringsToLower platform) ss).PlatformData.get g
            = u.PlatformData.get g) ∧
       ((pushSubmissions u (stringsToLower platform) ss).PlatformData.get f).Contests
           = (u.PlatformData.get f).Contests ∧
       ((pushSubmissions u (stringsToLower platform) ss).PlatformData.get f).Submissions
           = (u.PlatformData.get f).Submissions ++ ss) := by
  refine ⟨?_, ?_, rfl, rfl, ?_, ?_, ?_, ?_⟩
  · unfold AppendContestData
    rw [funext (fun u => pushContests_nil u (stringsToLower platform)), updateFirst_id]
  · unfold AppendSubmissionData
    rw [funext (fun u => pushSubmissions_nil u (stringsToLower platform)), updateFirst_id]
  · intro e' he'
    exact findOne_updateFirst_ne store email e' _ (fun v => pushContests_Email v _ _) he'
  · intro e' he'
    exact findOne_updateFirst_ne store email e' _ (fun v => pushSubmissions_Email v _ _) he'
  · intro u hu
    refine ⟨findOne_updateFirst_self store email _ (fun v => pushContests_Email v _ _) u hu,
      pushContests_Email u _ _, ?_, ?_, ?_, ?_, ?_, ?_, ?_, ?_, ?_, ?_⟩
    · rw [pushContests_eq u _ f hf cs]
    · rw [pushContests_eq u _ f hf cs]
    · rw [pushContests_eq u _ f hf cs]
    · rw [pushContests_eq u _ f hf cs]
    · intro g hg
      exact pushContests_get_ne u _ f g hf hg cs
    · rw [pushContests_get u _ f hf cs]
    · rw [pushContests_get u _ f hf cs]
    · rw [pushContests_get u _ f hf cs]
    · rw [pushContests_get u _ f hf cs]
    · rw [pushContests_get u _ f hf cs]
  · intro u hu
    refine ⟨findOne_updateFirst_self store email _ (fun v => pushSubmissions_Email v _ _) u hu,
      pushSubmissions_Email u _ _, ?_, ?_, ?_⟩
    · intro g hg
      exact pushSubmissions_get_ne u _ f g hf hg ss
    · rw [pushSubmissions_get u _ f hf ss]
    · rw [pushSubmissions_get u _ f hf ss]

/-- C10 witness: the empty-input no-op at a concrete store and the
frame facts for a singleton append. -/
theorem append_frame_condition_witness :
    keyToField (stringsToLower "Leetcode") = some PlatformField.leetcode ∧
    AppendContestData storeLC "a@x.com" "Leetcode" [] = (storeLC, .ok ()) ∧
    AppendSubmissionData storeLC "a@x.com" "Leetcode" [] = (storeLC, .ok ()) := by
  have h := append_frame_condition storeLC "a@x.com" "Leetcode" .leetcode rfl [tcX] [subW]
  exact ⟨rfl, h.1, h.2.1⟩
